import Mathlib

/-!
Verification of the simulation core of `unrogue` (src/main.rs), a turn-based
grid-world dungeon game.  The Rust source is shallowly embedded: structs become
Lean structures, `Vec<Object>` becomes `List Object`, the tile grid
`Vec<Vec<Tile>>` becomes a total function `Int → Int → Tile` (the source's
out-of-bounds panic is not modelled; every access proved about here is
in bounds), `i32` becomes `Int` (no arithmetic in the game approaches the
`i32` range), and the message log's formatted strings become an inductive
type carrying the formatted data.  Randomness is an external capability in
the source (`rand::thread_rng`), so the generator functions take the drawn
samples as explicit arguments; the range guarantees of `gen_range` appear as
hypotheses.  The FOV algorithm and the f32 unit-step rounding of
`move_towards` are external/floating-point and are taken as function
parameters where they occur.
-/

namespace Unrogue

/-- Tcod palette colors the game uses (presentation data only). -/
inductive RColor
  | WHITE
  | RED
  | GREEN
  | ORANGE
  | VIOLET
  | DARK_RED
  | DESATURATED_GREEN
  | DARKER_GREEN
  deriving DecidableEq, Repr

/-- Messages pushed to the log; each constructor is one of the `format!`
strings of the source, carrying the formatted-in data. -/
inductive Msg
  | attack (attacker : String) (target : String) (damage : Int)
  | noEffect (attacker : String) (target : String)
  | playerDeath
  | monsterDeath (name : String) (xp : Int)
  | inventoryFull (name : String)
  | pickedUp (name : String)
  | welcome
  deriving DecidableEq, Repr

/-- Message log (the source's `Messages` struct wrapping `Vec<(String, Color)>`). -/
abbrev Messages := List (Msg × RColor)

/-- Push onto the message log (`Messages::add`). -/
def Messages.add (msgs : Messages) (m : Msg) (color : RColor) : Messages :=
  msgs ++ [(m, color)]

/-- Death policy enum (`DeathCallback`). -/
inductive DeathCallback
  | Player
  | Monster
  deriving DecidableEq, Repr

/-- Combat stats (`Fighter`). -/
structure Fighter where
  max_hp : Int
  hp : Int
  defense : Int
  power : Int
  on_death : DeathCallback
  deriving DecidableEq, Repr

/-- AI tag (`Ai`). -/
inductive Ai
  | Basic
  deriving DecidableEq, Repr

/-- Item payload (`Item`). -/
inductive Item
  | Heal
  deriving DecidableEq, Repr

/-- World object (`Object`): player, monsters, items and corpses share this
one representation. -/
structure Object where
  x : Int
  y : Int
  char : Char
  color : RColor
  name : String
  blocks : Bool
  alive : Bool
  fighter : Option Fighter
  ai : Option Ai
  item : Option Item
  deriving DecidableEq, Repr

/-- Constructor `Object::new`. -/
def Object.new (x y : Int) (char : Char) (name : String) (color : RColor)
    (blocks : Bool) : Object :=
  { x := x, y := y, char := char, color := color, name := name, blocks := blocks,
    alive := false, fighter := none, ai := none, item := none }

/-- Default object used where the source would index a `Vec` (an index the
callers keep in bounds). -/
def dObj : Object := Object.new 0 0 ' ' "" RColor.WHITE false

/-- Setter `Object::set_position`. -/
def Object.set_position (self : Object) (x y : Int) : Object :=
  { self with x := x, y := y }

/-- Getter `Object::position`. -/
def Object.position (self : Object) : Int × Int :=
  (self.x, self.y)

/-- Map tile (`Tile`). -/
structure Tile where
  blocked : Bool
  explored : Bool
  block_sight : Bool
  deriving DecidableEq, Repr

/-- Constructor `Tile::empty`. -/
def Tile.empty : Tile :=
  { blocked := false, explored := false, block_sight := false }

/-- Constructor `Tile::wall`. -/
def Tile.wall : Tile :=
  { blocked := true, explored := false, block_sight := true }

/-- Tile grid (the source's `type Map = Vec<Vec<Tile>>`, indexed `map[x][y]`),
modelled as a total function over coordinates. -/
def GameMap := Int → Int → Tile

/-- Game state (`Game`). -/
structure Game where
  map : GameMap
  messages : Messages
  inventory : List Object

/-- Death transition `DeathCallback::player_death`. -/
def DeathCallback.player_death (player : Object) (game : Game) : Object × Game :=
  let game := { game with messages := game.messages.add Msg.playerDeath RColor.RED }
  ({ player with char := '%', color := RColor.DARK_RED }, game)

/-- Death transition `DeathCallback::monster_death`.  The source unwraps
`monster.fighter` for the experience message; a `none` there panics in Rust
and is modelled as 0 experience. -/
def DeathCallback.monster_death (monster : Object) (game : Game) : Object × Game :=
  let xp := match monster.fighter with
    | some f => f.max_hp
    | none => 0
  let game :=
    { game with messages := game.messages.add (Msg.monsterDeath monster.name xp) RColor.ORANGE }
  ({ monster with
      char := '%'
      color := RColor.DARK_RED
      blocks := false
      fighter := none
      ai := none
      name := "remains of " ++ monster.name }, game)

/-- Dispatch `DeathCallback::callback`. -/
def DeathCallback.callback : DeathCallback → Object → Game → Object × Game
  | DeathCallback.Player => DeathCallback.player_death
  | DeathCallback.Monster => DeathCallback.monster_death

/-- Damage application `Object::take_damage`. -/
def Object.take_damage (self : Object) (damage : Int) (game : Game) : Object × Game :=
  let self :=
    match self.fighter with
    | some fighter =>
        if damage > 0 then
          { self with fighter := some { fighter with hp := fighter.hp - damage } }
        else self
    | none => self
  match self.fighter with
  | some fighter =>
      if fighter.hp ≤ 0 then
        fighter.on_death.callback { self with alive := false } game
      else (self, game)
  | none => (self, game)

/-- Combat `Object::attack`.  The source mutates only the target and the
message log (the attacker is read); the pair returned is (target, game). -/
def Object.attack (self : Object) (target : Object) (game : Game) : Object × Game :=
  let damage :=
    (self.fighter.map Fighter.power).getD 0 - (target.fighter.map Fighter.defense).getD 0
  if damage > 0 then
    let game :=
      { game with
          messages := game.messages.add (Msg.attack self.name target.name damage) RColor.WHITE }
    target.take_damage damage game
  else
    ( target,
      { game with
          messages := game.messages.add (Msg.noEffect self.name target.name) RColor.WHITE } )

/-- Constant `MAP_WIDTH`. -/
def MAP_WIDTH : Int := 80

/-- Constant `MAP_HEIGHT`. -/
def MAP_HEIGHT : Int := 43

/-- Constant `ROOM_MAX_SIZE`. -/
def ROOM_MAX_SIZE : Int := 10

/-- Constant `ROOM_MIN_SIZE`. -/
def ROOM_MIN_SIZE : Int := 6

/-- Constant `MAX_ROOM_MONSTERS`. -/
def MAX_ROOM_MONSTERS : Int := 3

/-- Constant `MAX_ROOM_ITEMS`. -/
def MAX_ROOM_ITEMS : Int := 2

/-- Constant `PLAYER` (index 0 of the object collection is the player). -/
def PLAYER : Nat := 0

/-- Occupancy predicate `is_blocked`: the tile is a wall, or some entity with
`blocks == true` occupies the cell. -/
def is_blocked (x y : Int) (map : GameMap) (objects : List Object) : Bool :=
  if (map x y).blocked then
    true
  else
    objects.any fun object => object.blocks && decide (object.position = (x, y))

/-- Movement `Object::move_by`: apply the displacement only if the target cell
is not blocked; otherwise a silent no-op.  An out-of-range `id` panics in the
source and is a no-op here (all callers keep it in range). -/
def Object.move_by (id : Nat) (dx dy : Int) (map : GameMap) (objects : List Object) :
    List Object :=
  if !is_blocked ((objects.getD id dObj).x + dx) ((objects.getD id dObj).y + dy) map objects then
    objects.set id ((objects.getD id dObj).set_position
      ((objects.getD id dObj).x + dx) ((objects.getD id dObj).y + dy))
  else
    objects

/-- Axis-aligned room rectangle (`Rect`). -/
structure Rect where
  x1 : Int
  y1 : Int
  x2 : Int
  y2 : Int
  deriving DecidableEq, Repr

/-- Constructor `Rect::new`. -/
def Rect.new (x y width height : Int) : Rect :=
  { x1 := x, y1 := y, x2 := x + width, y2 := y + height }

/-- Center `Rect::center` (Rust `i32` division truncates: `Int.tdiv`). -/
def Rect.center (self : Rect) : Int × Int :=
  (Int.tdiv (self.x1 + self.x2) 2, Int.tdiv (self.y1 + self.y2) 2)

/-- Overlap test `Rect::intersects` (closed rectangles, inclusive bounds). -/
def Rect.intersects (self other : Rect) : Bool :=
  decide (self.x1 ≤ other.x2) && decide (self.x2 ≥ other.x1) &&
  decide (self.y1 ≤ other.y2) && decide (self.y2 ≥ other.y1)

/-- Integer range `[lo, hi)` as a list, the coordinates a Rust
`for v in lo..hi` loop visits. -/
def intRange (lo hi : Int) : List Int :=
  (List.range (hi - lo).toNat).map fun (i : Nat) => lo + (i : Int)

/-- Write one tile of the grid (the source's `map[x][y] = t`). -/
def set_tile (map : GameMap) (x y : Int) (t : Tile) : GameMap :=
  fun a b => if a = x ∧ b = y then t else map a b

/-- Carve every listed coordinate to `Tile::empty` (the body shared by
`create_room` and the tunnel carvers). -/
def carve (ps : List (Int × Int)) (map : GameMap) : GameMap :=
  ps.foldl (fun m p => set_tile m p.1 p.2 Tile.empty) map

/-- Interior coordinates of a room: `x1+1..x2` crossed with `y1+1..y2`,
in the nesting order of the source's two `for` loops. -/
def Rect.interior (room : Rect) : List (Int × Int) :=
  (intRange (room.x1 + 1) room.x2).flatMap fun x =>
    (intRange (room.y1 + 1) room.y2).map fun y => (x, y)

/-- Room carving `create_room`. -/
def create_room (room : Rect) (map : GameMap) : GameMap :=
  carve room.interior map

/-- Horizontal tunnel `create_h_tunnel`: carve `min(x1,x2)..=max(x1,x2)` at
row `y`. -/
def create_h_tunnel (x1 x2 y : Int) (map : GameMap) : GameMap :=
  carve ((intRange (min x1 x2) (max x1 x2 + 1)).map fun x => (x, y)) map

/-- Vertical tunnel `create_v_tunnel`. -/
def create_v_tunnel (y1 y2 x : Int) (map : GameMap) : GameMap :=
  carve ((intRange (min y1 y2) (max y1 y2 + 1)).map fun y => (x, y)) map

/-- One monster draw of `place_objects`: the position inside the room and the
80%/20% orc-vs-troll kind draw. -/
structure MonsterSample where
  x : Int
  y : Int
  orc : Bool
  deriving DecidableEq, Repr

/-- Population `place_objects`: the RNG draws arrive as explicit sample lists
(the monster count drawn in `0..=MAX_ROOM_MONSTERS` is the length of
`monsters`, the item count drawn in `0..MAX_ROOM_ITEMS` is the length of
`items`); a draw on a blocked cell is skipped, exactly as the source's
`continue`.  This is the body of the monster loop of `place_objects`. -/
def place_monster (map : GameMap) (objects : List Object) (s : MonsterSample) : List Object :=
  if is_blocked s.x s.y map objects then
    objects
  else
    let monster :=
      if s.orc then
        { Object.new s.x s.y 'o' "Orc" RColor.DESATURATED_GREEN true with
            fighter := some { max_hp := 10, hp := 10, defense := 0, power := 3,
                              on_death := DeathCallback.Monster },
            ai := some Ai.Basic }
      else
        { Object.new s.x s.y 'T' "Troll" RColor.DARKER_GREEN true with
            fighter := some { max_hp := 16, hp := 16, defense := 1, power := 4,
                              on_death := DeathCallback.Monster },
            ai := some Ai.Basic }
    objects ++ [{ monster with alive := true }]

/-- Body of the item loop of `place_objects`. -/
def place_item (map : GameMap) (objects : List Object) (p : Int × Int) : List Object :=
  if is_blocked p.1 p.2 map objects then
    objects
  else
    objects ++ [{ Object.new p.1 p.2 '!' "Healing potion" RColor.VIOLET false with
                    item := some Item.Heal }]

/-- Population `place_objects` (continued from the doc above): the monster
loop then the item loop. -/
def place_objects (room : Rect) (map : GameMap) (objects : List Object)
    (monsters : List MonsterSample) (items : List (Int × Int)) : List Object :=
  let objects := monsters.foldl (place_monster map) objects
  items.foldl (place_item map) objects

/-- One iteration's RNG draws for `make_map`: room width/height/origin, the
tunnel-direction coin (`rand::random()`), and the draws `place_objects`
consumes for this room. -/
structure RoomSample where
  width : Int
  height : Int
  x : Int
  y : Int
  coin : Bool
  monsters : List MonsterSample
  items : List (Int × Int)
  deriving DecidableEq, Repr

/-- Range guarantees `gen_range` gives the four room draws of one `make_map`
iteration. -/
def ValidSample (s : RoomSample) : Prop :=
  ROOM_MIN_SIZE ≤ s.width ∧ s.width ≤ ROOM_MAX_SIZE ∧
  ROOM_MIN_SIZE ≤ s.height ∧ s.height ≤ ROOM_MAX_SIZE ∧
  0 ≤ s.x ∧ s.x < MAP_WIDTH - s.width ∧
  0 ≤ s.y ∧ s.y < MAP_HEIGHT - s.height

instance (s : RoomSample) : Decidable (ValidSample s) := by
  unfold ValidSample
  infer_instance

/-- Body of one `make_map` loop iteration. -/
def make_map_step (s : RoomSample) (map : GameMap) (rooms : List Rect)
    (objects : List Object) : GameMap × List Rect × List Object :=
  let new_room := Rect.new s.x s.y s.width s.height
  let failed := rooms.any fun other_room => new_room.intersects other_room
  if failed then
    (map, rooms, objects)
  else
    let map := create_room new_room map
    let objects := place_objects new_room map objects s.monsters s.items
    let new_x := new_room.center.1
    let new_y := new_room.center.2
    let (map, objects) :=
      match rooms.getLast? with
      | none => (map, objects.set PLAYER ((objects.getD PLAYER dObj).set_position new_x new_y))
      | some prev =>
          let prev_x := prev.center.1
          let prev_y := prev.center.2
          if s.coin then
            (create_v_tunnel prev_y new_y new_x (create_h_tunnel prev_x new_x prev_y map),
             objects)
          else
            (create_h_tunnel prev_x new_x new_y (create_v_tunnel prev_y new_y prev_x map),
             objects)
    (map, rooms ++ [new_room], objects)

/-- Loop of `make_map` over the per-iteration samples. -/
def make_map_loop : List RoomSample → GameMap × List Rect × List Object →
    GameMap × List Rect × List Object
  | [], acc => acc
  | s :: rest, (map, rooms, objects) => make_map_loop rest (make_map_step s map rooms objects)

/-- Map generation `make_map`.  The source returns only the grid and mutates
`objects` in place, dropping the local `rooms`; the embedding returns all
three so the accepted rooms can be spoken about. -/
def make_map (samples : List RoomSample) (objects : List Object) :
    GameMap × List Rect × List Object :=
  make_map_loop samples ((fun _ _ => Tile.wall), [], objects)

/-- Model of Rust's `Vec::swap_remove(i)`: the removed element `l[i]` is
returned, the last element takes its slot. -/
def swapRemove (l : List Object) (i : Nat) : Object × List Object :=
  (l.getD i dObj, (l.set i (l.getLast?.getD dObj)).dropLast)

/-- Inventory transfer `pick_item_up`: at capacity 26 the world and the
inventory stay as they are and one "inventory is full" message is pushed;
below capacity the item moves (`swap_remove`) from the world collection into
the inventory. -/
def pick_item_up (object_id : Nat) (game : Game) (objects : List Object) :
    Game × List Object :=
  if game.inventory.length ≥ 26 then
    ( { game with
          messages := game.messages.add
            (Msg.inventoryFull (objects.getD object_id dObj).name) RColor.RED },
      objects )
  else
    let (item, objects) := swapRemove objects object_id
    let game := { game with messages := game.messages.add (Msg.pickedUp item.name) RColor.GREEN }
    ({ game with inventory := game.inventory ++ [item] }, objects)

/-- Move-or-attack `player_move_or_attack`: if a combat-capable entity
occupies the destination the player attacks it (via the `mut_two`
split-borrow, which writes back only the target — `attack` reads the
attacker), otherwise the player moves. -/
def player_move_or_attack (dx dy : Int) (game : Game) (objects : List Object) :
    Game × List Object :=
  let x := (objects.getD PLAYER dObj).x + dx
  let y := (objects.getD PLAYER dObj).y + dy
  let target_id := objects.findIdx? fun object =>
    object.fighter.isSome && decide (object.position = (x, y))
  match target_id with
  | some target_id =>
      let (target, game) := (objects.getD PLAYER dObj).attack (objects.getD target_id dObj) game
      (game, objects.set target_id target)
  | none =>
      (game, Object.move_by PLAYER dx dy game.map objects)

/-- Monster turn `ai_take_turn`.  The FOV query (`tcod.fov.is_in_fov`) is the
external visibility capability, passed as `fov`.  `move_towards` divides the
displacement by its f32 Euclidean length and rounds each axis; that
floating-point unit step is passed as `step`.  The `distance_to ≥ 2.0`
comparison is exact at the threshold (f32 sqrt is correctly rounded and
monotone, and sqrt 4 = 2 exactly), so it is embedded as `dx² + dy² ≥ 4`. -/
def ai_take_turn (fov : Int → Int → Bool) (step : Int → Int → Int × Int)
    (monster_id : Nat) (game : Game) (objects : List Object) : Game × List Object :=
  let monster := objects.getD monster_id dObj
  if fov monster.x monster.y then
    let player := objects.getD PLAYER dObj
    let dx := player.x - monster.x
    let dy := player.y - monster.y
    if dx ^ 2 + dy ^ 2 ≥ 4 then
      let s := step dx dy
      (game, Object.move_by monster_id s.1 s.2 game.map objects)
    else if (player.fighter.map Fighter.hp).getD 0 > 0 then
      let (player, game) := monster.attack player game
      (game, objects.set PLAYER player)
    else
      (game, objects)
  else
    (game, objects)

/-- Player actions (`PlayerAction`). -/
inductive PlayerAction
  | TookTurn
  | DidntTakeTurn
  | Exit
  deriving DecidableEq, Repr

/-- Key events the `handle_keys` match distinguishes (`tcod.key`): the
Alt+Enter fullscreen toggle, Escape, the four arrows, the text keys
"g" and "i", and anything else. -/
inductive GKey
  | altEnter
  | escape
  | up
  | down
  | left
  | right
  | textG
  | textI
  | other
  deriving DecidableEq, Repr

/-- Input resolution `handle_keys`.  The fullscreen toggle and the inventory
menu touch only the console (external), so those arms change no game state
here; note the source's "i" arm returns `TookTurn`. -/
def handle_keys (key : GKey) (game : Game) (objects : List Object) :
    PlayerAction × Game × List Object :=
  let player_alive := (objects.getD PLAYER dObj).alive
  match key, player_alive with
  | GKey.altEnter, _ => (PlayerAction.DidntTakeTurn, game, objects)
  | GKey.escape, _ => (PlayerAction.Exit, game, objects)
  | GKey.up, true =>
      let (game, objects) := player_move_or_attack 0 (-1) game objects
      (PlayerAction.TookTurn, game, objects)
  | GKey.down, true =>
      let (game, objects) := player_move_or_attack 0 1 game objects
      (PlayerAction.TookTurn, game, objects)
  | GKey.left, true =>
      let (game, objects) := player_move_or_attack (-1) 0 game objects
      (PlayerAction.TookTurn, game, objects)
  | GKey.right, true =>
      let (game, objects) := player_move_or_attack 1 0 game objects
      (PlayerAction.TookTurn, game, objects)
  | GKey.textG, true =>
      let item_id := objects.findIdx? fun object =>
        object.item.isSome && decide (object.position = (objects.getD PLAYER dObj).position)
      (match item_id with
       | some item_id =>
           let (game, objects) := pick_item_up item_id game objects
           (PlayerAction.DidntTakeTurn, game, objects)
       | none => (PlayerAction.DidntTakeTurn, game, objects))
  | GKey.textI, true => (PlayerAction.TookTurn, game, objects)
  | _, _ => (PlayerAction.DidntTakeTurn, game, objects)

/-- AI phase of the main loop: `for id in 0..objects.len()`, running
`ai_take_turn` for each id whose current object carries the AI tag. -/
def ai_phase (fov : Int → Int → Bool) (step : Int → Int → Int × Int)
    (game : Game) (objects : List Object) : Game × List Object :=
  (List.range objects.length).foldl
    (fun acc id =>
      if (acc.2.getD id dObj).ai.isSome then
        ai_take_turn fov step id acc.1 acc.2
      else
        acc)
    (game, objects)

/-- One pass of the main `while` loop after rendering: resolve the player
action; on `Exit` stop; otherwise run the AI phase only when the player is
alive and the action was turn-consuming. -/
def loop_step (fov : Int → Int → Bool) (step : Int → Int → Int × Int)
    (key : GKey) (game : Game) (objects : List Object) :
    PlayerAction × Game × List Object :=
  let (action, game, objects) := handle_keys key game objects
  if action = PlayerAction.Exit then
    (action, game, objects)
  else if (objects.getD PLAYER dObj).alive ∧ action ≠ PlayerAction.DidntTakeTurn then
    let (game, objects) := ai_phase fov step game objects
    (action, game, objects)
  else
    (action, game, objects)

/-- Tile pass of `render_all` (lines 523-541): for every map cell, a visible
tile becomes explored; nothing else about the tile changes.  `visible` is the
external FOV query. -/
def render_tiles (visible : Int → Int → Bool) (map : GameMap) : GameMap :=
  fun x y =>
    if 0 ≤ x ∧ x < MAP_WIDTH ∧ 0 ≤ y ∧ y < MAP_HEIGHT ∧ visible x y then
      { map x y with explored := true }
    else
      map x y

/-- Room validity facts that `gen_range` guarantees for every accepted room
(sizes at least `ROOM_MIN_SIZE` = 6 and a nonnegative origin). -/
def ValidRoom (r : Rect) : Prop :=
  r.x1 + 2 ≤ r.x2 ∧ r.y1 + 2 ≤ r.y2 ∧ 0 ≤ r.x1 ∧ 0 ≤ r.y1

/-- One step between orthogonally adjacent tiles that are both non-blocked
(the path notion of the spec's tunnel-connectivity property). -/
def AdjStep (map : GameMap) (p q : Int × Int) : Prop :=
  (map p.1 p.2).blocked = false ∧ (map q.1 q.2).blocked = false ∧
  ((q.1 - p.1).natAbs + (q.2 - p.2).natAbs = 1)

/-- Connectivity by a path of orthogonally adjacent non-blocked tiles. -/
def Connected (map : GameMap) (p q : Int × Int) : Prop :=
  Relation.ReflTransGen (AdjStep map) p q

/-- Loop invariant of `make_map`: accepted rooms are valid, their centers are
carved open, every center is connected to the first room's center, rooms are
pairwise non-intersecting, and the player (slot 0, when `objs0` is nonempty)
sits on the first accepted room's center. -/
structure GenInv (objs0 : List Object) (st : GameMap × List Rect × List Object) : Prop where
  valid : ∀ r ∈ st.2.1, ValidRoom r
  openc : ∀ r ∈ st.2.1, ((st.1 r.center.1 r.center.2).blocked = false)
  conn : ∀ first ∈ st.2.1.head?, ∀ r ∈ st.2.1, Connected st.1 first.center r.center
  pw : st.2.1.Pairwise fun a b => a.intersects b = false
  ppos : ∀ first ∈ st.2.1.head?, objs0 ≠ [] →
    (st.2.2.getD PLAYER dObj).position = first.center
  plen : objs0.length ≤ st.2.2.length

/-! ### Concrete fixtures used by witnesses and counterexamples -/

/-- All-empty grid. -/
def emptyMap : GameMap := fun _ _ => Tile.empty

/-- All-wall grid. -/
def wallMap : GameMap := fun _ _ => Tile.wall

/-- Game over the empty grid with no messages and an empty inventory. -/
def game0 : Game := { map := emptyMap, messages := [], inventory := [] }

/-- Fighter with power 5 (the spec's scenario B attacker). -/
def fA5 : Fighter := { max_hp := 30, hp := 30, defense := 0, power := 5,
                       on_death := DeathCallback.Player }

/-- Fighter with defense 2 (the spec's scenario B target). -/
def fD2 : Fighter := { max_hp := 10, hp := 10, defense := 2, power := 0,
                       on_death := DeathCallback.Monster }

/-- Fighter with power 2. -/
def fA2 : Fighter := { max_hp := 30, hp := 30, defense := 0, power := 2,
                       on_death := DeathCallback.Player }

/-- Fighter with defense 5. -/
def fD5 : Fighter := { max_hp := 16, hp := 16, defense := 5, power := 0,
                       on_death := DeathCallback.Monster }

/-- Attacker object with power 5. -/
def objP5 : Object := { Object.new 0 0 '@' "attacker" RColor.WHITE true with fighter := some fA5 }

/-- Target object with defense 2. -/
def objD2 : Object := { Object.new 1 0 'o' "orc" RColor.DESATURATED_GREEN true with
                          fighter := some fD2 }

/-- Attacker object with power 2. -/
def objP2 : Object := { Object.new 0 0 '@' "attacker" RColor.WHITE true with fighter := some fA2 }

/-- Target object with defense 5. -/
def objD5 : Object := { Object.new 1 0 'T' "troll" RColor.DARKER_GREEN true with
                          fighter := some fD5 }

/-- Monster with 1 hp (the spec's scenario C victim). -/
def objHp1 : Object := { Object.new 3 3 'o' "orc" RColor.DESATURATED_GREEN true with
    fighter := some { max_hp := 10, hp := 1, defense := 0, power := 3,
                      on_death := DeathCallback.Monster },
    ai := some Ai.Basic }

/-- Blocking mover fixture at the origin. -/
def mover0 : Object := { Object.new 0 0 '@' "mover" RColor.WHITE true with alive := true }

/-- Healing-potion item fixture. -/
def potion0 : Object := { Object.new 2 2 '!' "Healing potion" RColor.VIOLET false with
                            item := some Item.Heal }

/-- Game whose inventory already holds 26 entries. -/
def gameFull : Game := { map := emptyMap, messages := [], inventory := List.replicate 26 potion0 }

/-- Grid whose single tile state is explored ground. -/
def expMap : GameMap := fun _ _ => { blocked := false, explored := true, block_sight := false }

/-- Always-true visibility query. -/
def vTrue : Int → Int → Bool := fun _ _ => true

/-- Unit step fixture pointing one cell left. -/
def stepL : Int → Int → Int × Int := fun _ _ => (-1, 0)

/-- Alive player fixture at (10, 10) with the starting stats of `main`. -/
def playerW : Object := { Object.new 10 10 '@' "Player" RColor.WHITE true with
    alive := true,
    fighter := some { max_hp := 30, hp := 30, defense := 2, power := 5,
                      on_death := DeathCallback.Player } }

/-- Orc fixture at (20, 10) exactly as `place_objects` builds it. -/
def orc20 : Object := { Object.new 20 10 'o' "Orc" RColor.DESATURATED_GREEN true with
    alive := true,
    fighter := some { max_hp := 10, hp := 10, defense := 0, power := 3,
                      on_death := DeathCallback.Monster },
    ai := some Ai.Basic }

/-- First generation sample: a 6x6 room at (1, 1), no population draws. -/
def sA : RoomSample := { width := 6, height := 6, x := 1, y := 1, coin := true,
                         monsters := [], items := [] }

/-- Second generation sample: a 6x6 room at (20, 10), no population draws. -/
def sB : RoomSample := { width := 6, height := 6, x := 20, y := 10, coin := true,
                         monsters := [], items := [] }

/-- Generation sample whose single monster draw lands on the room center. -/
def s10 : RoomSample := { width := 6, height := 6, x := 1, y := 1, coin := true,
                          monsters := [{ x := 4, y := 4, orc := true }], items := [] }

/-- The player as `main` builds it, at the pre-generation position (25, 23). -/
def player25 : Object := { Object.new 25 23 '@' "Player" RColor.WHITE true with
    alive := true,
    fighter := some { max_hp := 30, hp := 30, defense := 2, power := 5,
                      on_death := DeathCallback.Player } }

/-! ### Theorems -/

/-- Characterization of `is_blocked`: true exactly when the tile is a wall or
some entity with `blocks == true` occupies the cell. -/
theorem is_blocked_spec (x y : Int) (map : GameMap) (objects : List Object) :
    is_blocked x y map objects = true ↔
      (map x y).blocked = true ∨ ∃ o ∈ objects, o.blocks = true ∧ o.position = (x, y) := by
  unfold is_blocked
  by_cases hb : (map x y).blocked
  · simp [hb]
  · simp [hb, List.any_eq_true]

/-- Membership of `getD` for an in-range index. -/
theorem getD_mem_of_lt {l : List Object} {j : Nat} (h : j < l.length) :
    l.getD j dObj ∈ l := by
  rw [List.getD_eq_getElem?_getD, List.getElem?_eq_getElem h]
  exact List.getElem_mem h

/-- C1: `attack` computes damage = attacker.power − target.defense.  Positive
damage appends the attack message and lowers the target's hp by exactly that
damage (and when the target survives, that is the entire effect);
non-positive damage leaves the target unchanged and appends exactly one
distinct no-effect message. -/
theorem c1_attack_damage (attacker target : Object) (game : Game) (fa ft : Fighter)
    (hfa : attacker.fighter = some fa) (hft : target.fighter = some ft) :
    (fa.power - ft.defense ≤ 0 →
      attacker.attack target game =
        (target,
         { game with messages := game.messages ++
             [(Msg.noEffect attacker.name target.name, RColor.WHITE)] })) ∧
    (0 < fa.power - ft.defense →
      (∃ rest, (attacker.attack target game).2.messages =
          game.messages ++
            (Msg.attack attacker.name target.name (fa.power - ft.defense), RColor.WHITE) :: rest) ∧
      (∀ f, ((attacker.attack target game).1).fighter = some f →
          f.hp = ft.hp - (fa.power - ft.defense)) ∧
      (0 < ft.hp - (fa.power - ft.defense) →
        attacker.attack target game =
          ({ target with fighter := some { ft with hp := ft.hp - (fa.power - ft.defense) } },
           { game with messages := game.messages ++
               [(Msg.attack attacker.name target.name (fa.power - ft.defense), RColor.WHITE)] }))) := by
  unfold Object.attack
  rw [hfa, hft]
  simp only [Option.map_some', Option.getD_some]
  constructor
  · intro hd
    rw [if_neg (by omega)]
    rfl
  · intro hd
    rw [if_pos (by omega)]
    unfold Object.take_damage
    rw [hft]
    simp only [gt_iff_lt, if_pos hd]
    by_cases hkill : ft.hp - (fa.power - ft.defense) ≤ 0
    · rw [if_pos hkill]
      cases hod : ft.on_death with
      | Player =>
          unfold DeathCallback.callback DeathCallback.player_death
          refine ⟨⟨[(Msg.playerDeath, RColor.RED)], by simp [Messages.add]⟩, ?_, by omega⟩
          intro f hf
          simp only at hf
          cases hf
          rfl
      | Monster =>
          unfold DeathCallback.callback DeathCallback.monster_death
          refine ⟨⟨[(Msg.monsterDeath target.name ft.max_hp, RColor.ORANGE)],
            by simp [Messages.add]⟩, ?_, by omega⟩
          intro f hf
          exact Option.noConfusion hf
    · rw [if_neg hkill]
      exact ⟨⟨[], by simp [Messages.add]⟩, fun f hf => by cases hf; rfl, fun _ => rfl⟩

/-- C1 witness: power 5 against defense 2 deals exactly 3 damage; power 2
against defense 5 leaves the target's hp unchanged and pushes one no-effect
message. -/
theorem c1_attack_damage_witness :
    (0 < fA5.power - fD2.defense ∧
      objP5.attack objD2 game0 =
        ({ objD2 with fighter := some { fD2 with hp := fD2.hp - (fA5.power - fD2.defense) } },
         { game0 with messages := game0.messages ++
             [(Msg.attack objP5.name objD2.name (fA5.power - fD2.defense), RColor.WHITE)] })) ∧
    (fA2.power - fD5.defense ≤ 0 ∧
      objP2.attack objD5 game0 =
        (objD5,
         { game0 with messages := game0.messages ++
             [(Msg.noEffect objP2.name objD5.name, RColor.WHITE)] })) :=
  ⟨⟨by decide,
    ((c1_attack_damage objP5 objD2 game0 fA5 fD2 rfl rfl).2 (by decide)).2.2 (by decide)⟩,
   ⟨by decide,
    (c1_attack_damage objP2 objD5 game0 fA2 fD5 rfl rfl).1 (by decide)⟩⟩

/-- C2: whenever the hp after damage application in `take_damage` is ≤ 0, the
alive flag drops and the death policy runs exactly once (it pushes its one
message); the monster transition rewrites the glyph to '%', clears
`blocks`, `fighter` and `ai`, and renames to "remains of X". -/
theorem c2_death_transition (self : Object) (damage : Int) (game : Game) (f : Fighter)
    (hf : self.fighter = some f)
    (hdead : (if damage > 0 then f.hp - damage else f.hp) ≤ 0) :
    ((self.take_damage damage game).1.alive = false) ∧
    (f.on_death = DeathCallback.Player →
      (self.take_damage damage game).2.messages =
        game.messages ++ [(Msg.playerDeath, RColor.RED)]) ∧
    (f.on_death = DeathCallback.Monster →
      (self.take_damage damage game).1.char = '%' ∧
      (self.take_damage damage game).1.blocks = false ∧
      (self.take_damage damage game).1.fighter = none ∧
      (self.take_damage damage game).1.ai = none ∧
      (self.take_damage damage game).1.name = "remains of " ++ self.name ∧
      (self.take_damage damage game).2.messages =
        game.messages ++ [(Msg.monsterDeath self.name f.max_hp, RColor.ORANGE)]) := by
  by_cases hpos : damage > 0
  · rw [if_pos hpos] at hdead
    cases hod : f.on_death with
    | Player =>
        refine ⟨?_, ?_, ?_⟩
        · simp [Object.take_damage, DeathCallback.callback, DeathCallback.player_death,
                Messages.add, hf, hpos, hdead, hod]
        · intro _
          simp [Object.take_damage, DeathCallback.callback, DeathCallback.player_death,
                Messages.add, hf, hpos, hdead, hod]
        · intro h
          cases h
    | Monster =>
        refine ⟨?_, ?_, ?_⟩
        · simp [Object.take_damage, DeathCallback.callback, DeathCallback.monster_death,
                Messages.add, hf, hpos, hdead, hod]
        · intro h
          cases h
        · intro _
          refine ⟨?_, ?_, ?_, ?_, ?_, ?_⟩ <;>
            simp [Object.take_damage, DeathCallback.callback, DeathCallback.monster_death,
                  Messages.add, hf, hpos, hdead, hod]
  · rw [if_neg hpos] at hdead
    cases hod : f.on_death with
    | Player =>
        refine ⟨?_, ?_, ?_⟩
        · simp [Object.take_damage, DeathCallback.callback, DeathCallback.player_death,
                Messages.add, hf, hpos, hdead, hod]
        · intro _
          simp [Object.take_damage, DeathCallback.callback, DeathCallback.player_death,
                Messages.add, hf, hpos, hdead, hod]
        · intro h
          cases h
    | Monster =>
        refine ⟨?_, ?_, ?_⟩
        · simp [Object.take_damage, DeathCallback.callback, DeathCallback.monster_death,
                Messages.add, hf, hpos, hdead, hod]
        · intro h
          cases h
        · intro _
          refine ⟨?_, ?_, ?_, ?_, ?_, ?_⟩ <;>
            simp [Object.take_damage, DeathCallback.callback, DeathCallback.monster_death,
                  Messages.add, hf, hpos, hdead, hod]

/-- C2 witness: the 1-hp orc attacked for 3 damage dies and becomes inert
remains. -/
theorem c2_death_transition_witness :
    (if (3 : Int) > 0 then (1 : Int) - 3 else 1) ≤ 0 ∧
    (objHp1.take_damage 3 game0).1.alive = false ∧
    (objHp1.take_damage 3 game0).1.char = '%' ∧
    (objHp1.take_damage 3 game0).1.blocks = false ∧
    (objHp1.take_damage 3 game0).1.fighter = none ∧
    (objHp1.take_damage 3 game0).1.ai = none ∧
    (objHp1.take_damage 3 game0).1.name = "remains of " ++ objHp1.name :=
  ⟨by decide,
   (c2_death_transition objHp1 3 game0 _ rfl (by decide)).1,
   ((c2_death_transition objHp1 3 game0 _ rfl (by decide)).2.2 rfl).1,
   ((c2_death_transition objHp1 3 game0 _ rfl (by decide)).2.2 rfl).2.1,
   ((c2_death_transition objHp1 3 game0 _ rfl (by decide)).2.2 rfl).2.2.1,
   ((c2_death_transition objHp1 3 game0 _ rfl (by decide)).2.2 rfl).2.2.2.1,
   ((c2_death_transition objHp1 3 game0 _ rfl (by decide)).2.2 rfl).2.2.2.2.1⟩

/-- C5 counterexample: a blocked move is a silent no-op, so a mover already
standing on a wall tile is still on a wall tile "after the move operation" —
the unconditional occupancy conclusion of the claim fails. -/
theorem c5_counterexample :
    Object.move_by 0 1 0 wallMap [mover0] = [mover0] ∧
    ((Object.move_by 0 1 0 wallMap [mover0]).getD 0 dObj).position = (0, 0) ∧
    (wallMap 0 0).blocked = true := by
  refine ⟨?_, ?_, rfl⟩ <;> decide

/-- C5 (amended): `move_by` applies the displacement exactly when the target
cell is not blocked and is a silent no-op otherwise; `is_blocked` is true
exactly when the tile is a wall or a blocking entity occupies it; and when
the move applies, the mover's tile after the move is not a wall and no other
entity with `blocks == true` shares it. -/
theorem c5_move_by_occupancy (id : Nat) (dx dy : Int) (map : GameMap)
    (objects : List Object) (hid : id < objects.length) :
    (is_blocked ((objects.getD id dObj).x + dx) ((objects.getD id dObj).y + dy) map objects
        = false →
      Object.move_by id dx dy map objects =
        objects.set id ((objects.getD id dObj).set_position
          ((objects.getD id dObj).x + dx) ((objects.getD id dObj).y + dy))) ∧
    (is_blocked ((objects.getD id dObj).x + dx) ((objects.getD id dObj).y + dy) map objects
        = true →
      Object.move_by id dx dy map objects = objects) ∧
    (∀ x y, is_blocked x y map objects = true ↔
      (map x y).blocked = true ∨ ∃ o ∈ objects, o.blocks = true ∧ o.position = (x, y)) ∧
    (is_blocked ((objects.getD id dObj).x + dx) ((objects.getD id dObj).y + dy) map objects
        = false →
      (((Object.move_by id dx dy map objects).getD id dObj).position =
          ((objects.getD id dObj).x + dx, (objects.getD id dObj).y + dy)) ∧
      (map ((objects.getD id dObj).x + dx) ((objects.getD id dObj).y + dy)).blocked = false ∧
      (∀ j, j ≠ id → j < objects.length →
        ¬(((Object.move_by id dx dy map objects).getD j dObj).blocks = true ∧
          ((Object.move_by id dx dy map objects).getD j dObj).position =
            ((objects.getD id dObj).x + dx, (objects.getD id dObj).y + dy)))) := by
  refine ⟨?_, ?_, fun x y => is_blocked_spec x y map objects, ?_⟩
  · intro hfree
    unfold Object.move_by
    rw [hfree]
    rfl
  · intro hblocked
    unfold Object.move_by
    rw [hblocked]
    rfl
  · intro hfree
    have happly : Object.move_by id dx dy map objects =
        objects.set id ((objects.getD id dObj).set_position
          ((objects.getD id dObj).x + dx) ((objects.getD id dObj).y + dy)) := by
      unfold Object.move_by
      rw [hfree]
      rfl
    have hnotor := (not_iff_not.mpr
      (is_blocked_spec ((objects.getD id dObj).x + dx) ((objects.getD id dObj).y + dy)
        map objects)).mp (by rw [hfree]; decide)
    push_neg at hnotor
    refine ⟨?_, ?_, ?_⟩
    · rw [happly]
      simp [List.getD_eq_getElem?_getD, List.getElem?_set_self, hid, Object.set_position,
            Object.position]
    · have := hnotor.1
      revert this
      cases (map ((objects.getD id dObj).x + dx) ((objects.getD id dObj).y + dy)).blocked <;>
        simp
    · intro j hj hjlen hcontra
      rw [happly] at hcontra
      rw [List.getD_eq_getElem?_getD, List.getElem?_set_ne (Ne.symm hj),
          ← List.getD_eq_getElem?_getD] at hcontra
      exact (hnotor.2 (objects.getD j dObj) (getD_mem_of_lt hjlen)) hcontra.1 hcontra.2

/-- C5 witness: a free move on the empty grid applies and satisfies the
occupancy conclusion at the destination. -/
theorem c5_move_by_occupancy_witness :
    (0 : Nat) < [mover0].length ∧
    is_blocked (mover0.x + 1) (mover0.y + 0) emptyMap [mover0] = false ∧
    Object.move_by 0 1 0 emptyMap [mover0] =
      [mover0].set 0 (([mover0].getD 0 dObj).set_position
        (([mover0].getD 0 dObj).x + 1) (([mover0].getD 0 dObj).y + 0)) :=
  ⟨by decide, by decide,
   (c5_move_by_occupancy 0 1 0 emptyMap [mover0] (by decide)).1 (by decide)⟩

/-- Removing index `i` by `swap_remove` leaves, up to order, exactly the
original collection minus the element at `i`. -/
theorem swapRemove_perm (l : List Object) (i : Nat) (hi : i < l.length) :
    List.Perm (swapRemove l i).2 (l.eraseIdx i) := by
  induction l generalizing i with
  | nil => cases hi
  | cons x xs ih =>
      cases i with
      | zero =>
          cases xs with
          | nil => simp [swapRemove]
          | cons y ys =>
              have hne : (y :: ys) ≠ [] := by simp
              unfold swapRemove
              rw [List.getLast?_cons_cons, List.getLast?_eq_getLast _ hne]
              simp only [Option.getD_some, List.set_cons_zero, List.eraseIdx_cons_zero]
              rw [List.dropLast_cons_of_ne_nil hne]
              refine (@List.perm_append_comm _
                [(y :: ys).getLast hne] (y :: ys).dropLast).trans ?_
              rw [List.dropLast_append_getLast hne]
      | succ i =>
          have hxs : xs ≠ [] := by
            intro h
            rw [h] at hi
            simp at hi
          have hi' : i < xs.length := by
            simp at hi
            omega
          have hlast : (x :: xs).getLast? = xs.getLast? := by
            cases xs with
            | nil => exact absurd rfl hxs
            | cons y ys => exact List.getLast?_cons_cons
          have hset : xs.set i (xs.getLast?.getD dObj) ≠ [] := by
            intro h
            apply hxs
            have hlen := congrArg List.length h
            rw [List.length_set] at hlen
            exact List.eq_nil_of_length_eq_zero hlen
          unfold swapRemove
          rw [hlast, List.set_cons_succ, List.eraseIdx_cons_succ,
              List.dropLast_cons_of_ne_nil hset]
          have h2 := ih i hi'
          unfold swapRemove at h2
          exact List.Perm.cons x h2

/-- C8: `pick_item_up` at inventory capacity 26 leaves the world collection
and the inventory unchanged and appends exactly one "inventory is full"
message; below capacity it removes exactly the targeted item from the world
collection (up to the reordering of `swap_remove`) and appends that same
object to the inventory. -/
theorem c8_pick_item_up (object_id : Nat) (game : Game) (objects : List Object)
    (hid : object_id < objects.length) :
    (game.inventory.length ≥ 26 →
      pick_item_up object_id game objects =
        ({ game with messages := game.messages ++
             [(Msg.inventoryFull (objects.getD object_id dObj).name, RColor.RED)] },
         objects)) ∧
    (game.inventory.length < 26 →
      (pick_item_up object_id game objects).1.inventory =
        game.inventory ++ [objects.getD object_id dObj] ∧
      List.Perm (pick_item_up object_id game objects).2 (objects.eraseIdx object_id) ∧
      (pick_item_up object_id game objects).1.messages =
        game.messages ++ [(Msg.pickedUp (objects.getD object_id dObj).name, RColor.GREEN)]) := by
  constructor
  · intro hfull
    unfold pick_item_up
    rw [if_pos hfull]
    rfl
  · intro hroom
    unfold pick_item_up
    rw [if_neg (by omega)]
    exact ⟨rfl, swapRemove_perm objects object_id hid, rfl⟩

/-- C8 witness: a 27th pick-up is rejected with one message and the world
unchanged; a pick-up with room moves the potion into the inventory. -/
theorem c8_pick_item_up_witness :
    ((0 : Nat) < [potion0].length ∧ gameFull.inventory.length ≥ 26 ∧
      pick_item_up 0 gameFull [potion0] =
        ({ gameFull with messages := gameFull.messages ++
             [(Msg.inventoryFull ([potion0].getD 0 dObj).name, RColor.RED)] },
         [potion0])) ∧
    (game0.inventory.length < 26 ∧
      (pick_item_up 0 game0 [potion0]).1.inventory =
        game0.inventory ++ [[potion0].getD 0 dObj]) :=
  ⟨⟨by decide, by decide,
    (c8_pick_item_up 0 gameFull [potion0] (by decide)).1 (by decide)⟩,
   ⟨by decide,
    ((c8_pick_item_up 0 game0 [potion0] (by decide)).2 (by decide)).1⟩⟩

/-- Death callbacks never touch the tile grid. -/
theorem callback_map (cb : DeathCallback) (o : Object) (g : Game) :
    (cb.callback o g).2.map = g.map := by
  cases cb <;> rfl

/-- `take_damage` never touches the tile grid. -/
theorem take_damage_map (o : Object) (d : Int) (g : Game) :
    (o.take_damage d g).2.map = g.map := by
  unfold Object.take_damage
  dsimp only
  repeat' split
  all_goals first | rfl | exact callback_map _ _ _

/-- `attack` never touches the tile grid. -/
theorem attack_map (a t : Object) (g : Game) : (a.attack t g).2.map = g.map := by
  unfold Object.attack
  dsimp only
  split
  · exact take_damage_map _ _ _
  · rfl

/-- `pick_item_up` never touches the tile grid. -/
theorem pick_item_up_map (i : Nat) (g : Game) (objs : List Object) :
    (pick_item_up i g objs).1.map = g.map := by
  unfold pick_item_up
  split <;> rfl

/-- `player_move_or_attack` never touches the tile grid. -/
theorem player_move_or_attack_map (dx dy : Int) (g : Game) (objs : List Object) :
    (player_move_or_attack dx dy g objs).1.map = g.map := by
  unfold player_move_or_attack
  dsimp only
  split
  · exact attack_map _ _ _
  · rfl

/-- `ai_take_turn` never touches the tile grid. -/
theorem ai_take_turn_map (fov : Int → Int → Bool) (step : Int → Int → Int × Int)
    (i : Nat) (g : Game) (objs : List Object) :
    (ai_take_turn fov step i g objs).1.map = g.map := by
  unfold ai_take_turn
  dsimp only
  repeat' split
  all_goals first | rfl | exact attack_map _ _ _

/-- Folding a grid-preserving body preserves the grid. -/
theorem foldl_map_inv (l : List Nat) (f : Game × List Object → Nat → Game × List Object)
    (hf : ∀ acc i, ((f acc i).1.map = acc.1.map)) :
    ∀ acc, ((l.foldl f acc).1.map = acc.1.map) := by
  induction l with
  | nil => intro acc; rfl
  | cons a as ih =>
      intro acc
      rw [List.foldl_cons, ih (f acc a), hf]

/-- The AI phase never touches the tile grid. -/
theorem ai_phase_map (fov : Int → Int → Bool) (step : Int → Int → Int × Int)
    (g : Game) (objs : List Object) : (ai_phase fov step g objs).1.map = g.map := by
  unfold ai_phase
  exact foldl_map_inv _ _
    (fun acc i => by
      split
      · exact ai_take_turn_map fov step i acc.1 acc.2
      · rfl)
    (g, objs)

/-- `handle_keys` never touches the tile grid. -/
theorem handle_keys_map (key : GKey) (g : Game) (objs : List Object) :
    (handle_keys key g objs).2.1.map = g.map := by
  unfold handle_keys
  cases key <;> cases hal : (objs.getD PLAYER dObj).alive <;>
    simp only [hal] <;>
    first
      | rfl
      | exact player_move_or_attack_map _ _ _ _
      | (split
         · exact pick_item_up_map _ _ _
         · rfl)

/-- One whole loop pass never touches the tile grid. -/
theorem loop_step_map (fov : Int → Int → Bool) (step : Int → Int → Int × Int)
    (key : GKey) (g : Game) (objs : List Object) :
    (loop_step fov step key g objs).2.1.map = g.map := by
  have hg := handle_keys_map key g objs
  unfold loop_step
  rcases hk : handle_keys key g objs with ⟨action, game2, objects2⟩
  rw [hk] at hg
  dsimp only
  split
  · exact hg
  · split
    · show (ai_phase fov step game2 objects2).1.map = g.map
      rw [ai_phase_map]
      exact hg
    · exact hg

/-- Once explored, a tile stays explored through any sequence of render
passes. -/
theorem render_ratchet (vs : List (Int → Int → Bool)) :
    ∀ (map : GameMap) (x y : Int), (map x y).explored = true →
      ((vs.foldl (fun m v => render_tiles v m) map) x y).explored = true := by
  induction vs with
  | nil => intro map x y h; exact h
  | cons v rest ih =>
      intro map x y h
      rw [List.foldl_cons]
      apply ih
      unfold render_tiles
      split
      · rfl
      · exact h

/-- C9: a tile's explored flag is set exactly when the render pass observes
the tile visible (and in range), never cleared: it only moves from false to
true, every other tile field is untouched, once true it survives any
sequence of render passes, and the rest of a turn (`loop_step`) never
touches the grid at all. -/
theorem c9_explored_monotone (map : GameMap) (visible : Int → Int → Bool) (x y : Int) :
    (((render_tiles visible map) x y).explored = true ↔
      ((map x y).explored = true ∨
        (0 ≤ x ∧ x < MAP_WIDTH ∧ 0 ≤ y ∧ y < MAP_HEIGHT ∧ visible x y = true))) ∧
    ((render_tiles visible map) x y).blocked = (map x y).blocked ∧
    ((render_tiles visible map) x y).block_sight = (map x y).block_sight ∧
    (∀ vs : List (Int → Int → Bool), (map x y).explored = true →
      ((vs.foldl (fun m v => render_tiles v m) map) x y).explored = true) ∧
    (∀ (fov : Int → Int → Bool) (step : Int → Int → Int × Int) (key : GKey)
        (g : Game) (objs : List Object),
      (loop_step fov step key g objs).2.1.map = g.map) := by
  refine ⟨?_, ?_, ?_, fun vs => render_ratchet vs map x y,
          fun fov step key g objs => loop_step_map fov step key g objs⟩
  · unfold render_tiles
    split
    · rename_i h
      simp [h]
    · rename_i h
      simp [h]
  · unfold render_tiles
    split <;> rfl
  · unfold render_tiles
    split <;> rfl

/-- C9 witness: an explored tile stays explored through a render pass. -/
theorem c9_explored_monotone_witness :
    (expMap 0 0).explored = true ∧
    (([vTrue].foldl (fun m v => render_tiles v m) expMap) 0 0).explored = true :=
  ⟨rfl, (c9_explored_monotone expMap vTrue 0 0).2.2.2.1 [vTrue] rfl⟩

/-- Index bound and predicate truth extracted from a successful `findIdx?`. -/
theorem findIdx?_getD {l : List Object} {p : Object → Bool} {i : Nat}
    (hp : l.findIdx? p = some i) : i < l.length ∧ p (l.getD i dObj) = true := by
  obtain ⟨hlt, hidx⟩ := List.findIdx?_eq_some_iff_findIdx_eq.mp hp
  refine ⟨hlt, ?_⟩
  have h4 := @List.findIdx_getElem _ p l (by rw [hidx]; exact hlt)
  rw [List.getD_eq_getElem?_getD, List.getElem?_eq_getElem hlt]
  simp only [hidx] at h4
  simp only [Option.getD_some]
  exact h4

/-- Erasing an element the filter rejects leaves the filtered list as it
was. -/
theorem filter_eraseIdx_eq (l : List Object) (i : Nat) (p : Object → Bool)
    (hi : i < l.length) (hp : p (l.getD i dObj) = false) :
    (l.eraseIdx i).filter p = l.filter p := by
  have hdrop : l.drop i = l.getD i dObj :: l.drop (i + 1) := by
    rw [List.getD_eq_getElem?_getD, List.getElem?_eq_getElem hi, Option.getD_some]
    exact List.drop_eq_getElem_cons hi
  conv_rhs => rw [← List.take_append_drop i l, hdrop]
  rw [List.eraseIdx_eq_take_drop_succ, List.filter_append, List.filter_append,
      List.filter_cons, hp]
  simp

/-- `swap_remove` of an element the filter rejects permutes the filtered
list onto itself. -/
theorem swapRemove_filter_perm (l : List Object) (i : Nat) (p : Object → Bool)
    (hi : i < l.length) (hp : p (l.getD i dObj) = false) :
    List.Perm (((swapRemove l i).2).filter p) (l.filter p) := by
  refine ((swapRemove_perm l i hi).filter p).trans ?_
  rw [filter_eraseIdx_eq l i p hi hp]

/-- Every `DidntTakeTurn` arm of `handle_keys` leaves the world collection
untouched, except the "g" pick-up, which `swap_remove`s one item-bearing
entity. -/
theorem handle_keys_dtt (key : GKey) (g : Game) (objs : List Object)
    (h : (handle_keys key g objs).1 = PlayerAction.DidntTakeTurn) :
    (handle_keys key g objs).2.2 = objs ∨
    ∃ i, i < objs.length ∧ (objs.getD i dObj).item.isSome = true ∧
      (handle_keys key g objs).2.2 = (swapRemove objs i).2 := by
  unfold handle_keys at h ⊢
  cases key <;> cases hal : (objs.getD PLAYER dObj).alive <;> simp only [hal] at h ⊢ <;>
    try first | exact Or.inl rfl | exact Or.inl trivial
  all_goals try cases h
  cases hfind : objs.findIdx? fun object =>
      object.item.isSome && decide (object.position = (objs.getD PLAYER dObj).position) with
  | none => exact Or.inl rfl
  | some i =>
      obtain ⟨hlt, hpred⟩ := findIdx?_getD hfind
      unfold pick_item_up
      dsimp only
      split
      · exact Or.inl rfl
      · refine Or.inr ⟨i, hlt, ?_, rfl⟩
        have h5 : (objs.getD i dObj).item.isSome = true ∧
            (objs.getD i dObj).position = (objs.getD PLAYER dObj).position := by
          simpa using hpred
        exact h5.1

/-- C3: when `handle_keys` answers `DidntTakeTurn`, the AI-tagged entities'
positions and hp are unchanged (as a multiset) across the whole loop pass —
the AI phase runs only when the player is alive and the action was
turn-consuming.  The hypothesis `hsep` records the program invariant that
item-bearing entities carry no AI tag (the source only ever builds potions
without `ai` and monsters without `item`). -/
theorem c3_dtt_freezes_ai (fov : Int → Int → Bool) (step : Int → Int → Int × Int)
    (key : GKey) (g : Game) (objs : List Object)
    (hsep : ∀ o ∈ objs, o.item.isSome = true → o.ai = none)
    (hdtt : (handle_keys key g objs).1 = PlayerAction.DidntTakeTurn) :
    List.Perm
      (((loop_step fov step key g objs).2.2.filter fun o => o.ai.isSome).map
        fun o => (o.position, o.fighter.map Fighter.hp))
      ((objs.filter fun o => o.ai.isSome).map
        fun o => (o.position, o.fighter.map Fighter.hp)) ∧
    (∀ a g2 o2, handle_keys key g objs = (a, g2, o2) →
      ¬(a = PlayerAction.TookTurn ∧ (o2.getD PLAYER dObj).alive = true) →
      loop_step fov step key g objs = (a, g2, o2)) := by
  constructor
  · have hobj : (loop_step fov step key g objs).2.2 = (handle_keys key g objs).2.2 := by
      unfold loop_step
      rcases hk : handle_keys key g objs with ⟨a, g2, o2⟩
      rw [hk] at hdtt
      dsimp only at hdtt ⊢
      subst hdtt
      rw [if_neg (by decide), if_neg (by simp)]
    rw [hobj]
    rcases handle_keys_dtt key g objs hdtt with heq | ⟨i, hlt, hitem, heq⟩
    · rw [heq]
    · rw [heq]
      refine List.Perm.map _ ?_
      refine swapRemove_filter_perm objs i _ hlt ?_
      have hai := hsep (objs.getD i dObj) (getD_mem_of_lt hlt) hitem
      show (objs.getD i dObj).ai.isSome = false
      rw [hai]
      rfl
  · intro a g2 o2 hk hna
    unfold loop_step
    rw [hk]
    dsimp only
    split
    · rfl
    · rename_i hne
      split
      · rename_i hcond
        exfalso
        apply hna
        refine ⟨?_, hcond.1⟩
        cases a with
        | TookTurn => rfl
        | DidntTakeTurn => exact absurd rfl hcond.2
        | Exit => exact absurd rfl hne
      · rfl

/-- C3 witness: an unhandled key leaves the AI data of a concrete world
untouched through a loop pass. -/
theorem c3_dtt_freezes_ai_witness :
    List.Perm
      (((loop_step vTrue stepL GKey.other game0 [playerW, orc20]).2.2.filter
          fun o => o.ai.isSome).map fun o => (o.position, o.fighter.map Fighter.hp))
      (([playerW, orc20].filter fun o => o.ai.isSome).map
          fun o => (o.position, o.fighter.map Fighter.hp)) :=
  (c3_dtt_freezes_ai vTrue stepL GKey.other game0 [playerW, orc20]
    (by decide) (by decide)).1

/-- C4 counterexample: the "i" inventory key returns `TookTurn` in the
source, and the AI phase does run after it — the concrete orc moves. -/
theorem c4_counterexample :
    (handle_keys GKey.textI game0 [playerW, orc20]).1 = PlayerAction.TookTurn ∧
    ([playerW, orc20].getD 1 dObj).ai.isSome = true ∧
    ([playerW, orc20].getD 1 dObj).position = (20, 10) ∧
    ((loop_step vTrue stepL GKey.textI game0 [playerW, orc20]).2.2.getD 1 dObj).position
      = (19, 10) := by
  refine ⟨?_, ?_, ?_, ?_⟩ <;> decide

/-- C4 (amended): the "i" inventory key is a `TookTurn` action (with a live
player) and therefore does trigger the AI phase; the genuine
`DidntTakeTurn` events — the fullscreen toggle, unhandled keys, and the "g"
pick-up — do not: a `DidntTakeTurn` answer makes the loop pass return the
`handle_keys` result with no AI phase at all. -/
theorem c4_input_gating (g : Game) (objs : List Object) :
    ((objs.getD PLAYER dObj).alive = true →
      handle_keys GKey.textI g objs = (PlayerAction.TookTurn, g, objs)) ∧
    ((handle_keys GKey.altEnter g objs).1 = PlayerAction.DidntTakeTurn) ∧
    ((handle_keys GKey.other g objs).1 = PlayerAction.DidntTakeTurn) ∧
    ((handle_keys GKey.textG g objs).1 = PlayerAction.DidntTakeTurn) ∧
    (∀ (fov : Int → Int → Bool) (step : Int → Int → Int × Int) (key : GKey),
      (handle_keys key g objs).1 = PlayerAction.DidntTakeTurn →
      loop_step fov step key g objs = handle_keys key g objs) := by
  refine ⟨?_, ?_, ?_, ?_, ?_⟩
  · intro hal
    unfold handle_keys
    dsimp only
    rw [hal]
  · rfl
  · rfl
  · cases hal : (objs.getD PLAYER dObj).alive with
    | false =>
        unfold handle_keys
        dsimp only
        rw [hal]
    | true =>
        unfold handle_keys
        dsimp only
        rw [hal]
        dsimp only
        split <;> rfl
  · intro fov step key hdtt
    unfold loop_step
    rcases hk : handle_keys key g objs with ⟨a, g2, o2⟩
    rw [hk] at hdtt
    dsimp only at hdtt ⊢
    subst hdtt
    rw [if_neg (by decide), if_neg (by simp)]

/-- C4 witness: the amended gating at a concrete world. -/
theorem c4_input_gating_witness :
    handle_keys GKey.textI game0 [playerW, orc20] =
      (PlayerAction.TookTurn, game0, [playerW, orc20]) ∧
    loop_step vTrue stepL GKey.altEnter game0 [playerW, orc20] =
      handle_keys GKey.altEnter game0 [playerW, orc20] ∧
    loop_step vTrue stepL GKey.textG game0 [playerW, orc20] =
      handle_keys GKey.textG game0 [playerW, orc20] :=
  ⟨(c4_input_gating game0 [playerW, orc20]).1 (by decide),
   (c4_input_gating game0 [playerW, orc20]).2.2.2.2 vTrue stepL GKey.altEnter
     (c4_input_gating game0 [playerW, orc20]).2.1,
   (c4_input_gating game0 [playerW, orc20]).2.2.2.2 vTrue stepL GKey.textG
     (c4_input_gating game0 [playerW, orc20]).2.2.2.1⟩

/-- Pointwise description of `carve`: a listed coordinate becomes empty,
everything else keeps its tile. -/
theorem carve_at (ps : List (Int × Int)) (map : GameMap) (x y : Int) :
    (carve ps map) x y = if (x, y) ∈ ps then Tile.empty else map x y := by
  induction ps generalizing map with
  | nil => simp [carve]
  | cons p rest ih =>
      show (carve rest (set_tile map p.1 p.2 Tile.empty)) x y = _
      rw [ih]
      unfold set_tile
      by_cases hr : (x, y) ∈ rest
      · rw [if_pos hr, if_pos (List.mem_cons_of_mem p hr)]
      · rw [if_neg hr]
        by_cases hp : x = p.1 ∧ y = p.2
        · rw [if_pos hp, if_pos (by
            obtain ⟨h1, h2⟩ := hp
            subst h1
            subst h2
            exact List.mem_cons_self _ _)]
        · rw [if_neg hp, if_neg (by
            intro hmem
            rcases List.mem_cons.mp hmem with h | h
            · exact hp ⟨congrArg Prod.fst h, congrArg Prod.snd h⟩
            · exact hr h)]

/-- Carving never blocks an open tile. -/
theorem carve_mono (ps : List (Int × Int)) (map : GameMap) (x y : Int)
    (h : (map x y).blocked = false) : ((carve ps map) x y).blocked = false := by
  rw [carve_at]
  split
  · rfl
  · exact h

/-- Membership in the half-open integer range. -/
theorem mem_intRange (lo hi v : Int) : v ∈ intRange lo hi ↔ lo ≤ v ∧ v < hi := by
  unfold intRange
  simp only [List.mem_map, List.mem_range]
  constructor
  · rintro ⟨i, hi2, rfl⟩
    show lo ≤ lo + (i : Int) ∧ lo + (i : Int) < hi
    omega
  · intro h
    refine ⟨(v - lo).toNat, by omega, ?_⟩
    show lo + (((v - lo).toNat : Nat) : Int) = v
    omega

/-- Membership in a room's carved interior. -/
theorem mem_interior (room : Rect) (x y : Int) :
    (x, y) ∈ room.interior ↔
      (room.x1 + 1 ≤ x ∧ x < room.x2 ∧ room.y1 + 1 ≤ y ∧ y < room.y2) := by
  unfold Rect.interior
  simp only [List.mem_flatMap, List.mem_map, mem_intRange]
  constructor
  · rintro ⟨a, ha, b, hb, heq⟩
    cases heq
    exact ⟨ha.1, ha.2, hb.1, hb.2⟩
  · intro h
    exact ⟨x, ⟨h.1, h.2.1⟩, y, ⟨h.2.2.1, h.2.2.2⟩, rfl⟩

/-- Membership in a horizontal tunnel's coordinate list. -/
theorem mem_hcoords (x1 x2 y a b : Int) :
    (a, b) ∈ ((intRange (min x1 x2) (max x1 x2 + 1)).map fun x => (x, y)) ↔
      (min x1 x2 ≤ a ∧ a ≤ max x1 x2 ∧ b = y) := by
  simp only [List.mem_map, mem_intRange]
  constructor
  · rintro ⟨v, hv, heq⟩
    cases heq
    exact ⟨hv.1, by omega, rfl⟩
  · intro h
    exact ⟨a, ⟨h.1, by omega⟩, by rw [h.2.2]⟩

/-- Membership in a vertical tunnel's coordinate list. -/
theorem mem_vcoords (y1 y2 x a b : Int) :
    (a, b) ∈ ((intRange (min y1 y2) (max y1 y2 + 1)).map fun y => (x, y)) ↔
      (min y1 y2 ≤ b ∧ b ≤ max y1 y2 ∧ a = x) := by
  simp only [List.mem_map, mem_intRange]
  constructor
  · rintro ⟨v, hv, heq⟩
    cases heq
    exact ⟨hv.1, by omega, rfl⟩
  · intro h
    exact ⟨b, ⟨h.1, by omega⟩, by rw [h.2.2]⟩

/-- Rust truncating division by 2 agrees with Lean's division on
nonnegative dividends. -/
theorem tdiv_two_of_nonneg (a : Int) (h : 0 ≤ a) : Int.tdiv a 2 = a / 2 := by
  rw [Int.tdiv_eq_ediv] <;> omega

/-- A valid room's center lies in its carved interior. -/
theorem center_interior (r : Rect) (hv : ValidRoom r) :
    r.x1 + 1 ≤ r.center.1 ∧ r.center.1 < r.x2 ∧
    r.y1 + 1 ≤ r.center.2 ∧ r.center.2 < r.y2 := by
  obtain ⟨h1, h2, h3, h4⟩ := hv
  unfold Rect.center
  dsimp only
  rw [tdiv_two_of_nonneg _ (by omega), tdiv_two_of_nonneg _ (by omega)]
  refine ⟨?_, ?_, ?_, ?_⟩ <;> omega

/-- Adjacency steps are symmetric. -/
theorem adjStep_symm (map : GameMap) : Symmetric (AdjStep map) := by
  intro p q h
  unfold AdjStep at h ⊢
  obtain ⟨h1, h2, h3⟩ := h
  exact ⟨h2, h1, by omega⟩

/-- Connectivity transfers to any map with at least the same open tiles. -/
theorem connected_mono (m m2 : GameMap)
    (hm : ∀ x y, (m x y).blocked = false → (m2 x y).blocked = false) (p q : Int × Int)
    (h : Connected m p q) : Connected m2 p q := by
  refine Relation.ReflTransGen.mono ?_ h
  intro a b hab
  exact ⟨hm a.1 a.2 hab.1, hm b.1 b.2 hab.2.1, hab.2.2⟩

/-- Walking right along an open horizontal segment. -/
theorem connected_h_aux (m : GameMap) (y : Int) (n : Nat) :
    ∀ a : Int, (∀ x, a ≤ x → x ≤ a + n → (m x y).blocked = false) →
      Connected m (a, y) (a + n, y) := by
  induction n with
  | zero =>
      intro a h
      simpa using (Relation.ReflTransGen.refl : Connected m (a, y) (a, y))
  | succ k ih =>
      intro a h
      have step1 : AdjStep m (a, y) (a + 1, y) :=
        ⟨h a le_rfl (by omega), h (a + 1) (by omega) (by omega), by
          show ((a + 1) - a).natAbs + (y - y).natAbs = 1
          omega⟩
      refine Relation.ReflTransGen.head step1 ?_
      have h2 := ih (a + 1) (fun x hx1 hx2 => h x (by omega) (by omega))
      have heq : a + 1 + (k : Int) = a + ((k + 1 : Nat) : Int) := by push_cast; ring
      rw [heq] at h2
      exact h2

/-- Two cells of one open horizontal segment are connected. -/
theorem connected_h (m : GameMap) (y a b : Int)
    (h : ∀ x, min a b ≤ x → x ≤ max a b → (m x y).blocked = false) :
    Connected m (a, y) (b, y) := by
  rcases le_total a b with hab | hab
  · have h2 := connected_h_aux m y (b - a).toNat a (fun x h1 h2 => h x (by omega) (by omega))
    rw [show a + (((b - a).toNat : Nat) : Int) = b by omega] at h2
    exact h2
  · have h2 := connected_h_aux m y (a - b).toNat b (fun x h1 h2 => h x (by omega) (by omega))
    rw [show b + (((a - b).toNat : Nat) : Int) = a by omega] at h2
    exact Relation.ReflTransGen.symmetric (adjStep_symm m) h2

/-- Walking down along an open vertical segment. -/
theorem connected_v_aux (m : GameMap) (x : Int) (n : Nat) :
    ∀ a : Int, (∀ y, a ≤ y → y ≤ a + n → (m x y).blocked = false) →
      Connected m (x, a) (x, a + n) := by
  induction n with
  | zero =>
      intro a h
      simpa using (Relation.ReflTransGen.refl : Connected m (x, a) (x, a))
  | succ k ih =>
      intro a h
      have step1 : AdjStep m (x, a) (x, a + 1) :=
        ⟨h a le_rfl (by omega), h (a + 1) (by omega) (by omega), by
          show (x - x).natAbs + ((a + 1) - a).natAbs = 1
          omega⟩
      refine Relation.ReflTransGen.head step1 ?_
      have h2 := ih (a + 1) (fun v hv1 hv2 => h v (by omega) (by omega))
      have heq : a + 1 + (k : Int) = a + ((k + 1 : Nat) : Int) := by push_cast; ring
      rw [heq] at h2
      exact h2

/-- Two cells of one open vertical segment are connected. -/
theorem connected_v (m : GameMap) (x a b : Int)
    (h : ∀ y, min a b ≤ y → y ≤ max a b → (m x y).blocked = false) :
    Connected m (x, a) (x, b) := by
  rcases le_total a b with hab | hab
  · have h2 := connected_v_aux m x (b - a).toNat a (fun v h1 h2 => h v (by omega) (by omega))
    rw [show a + (((b - a).toNat : Nat) : Int) = b by omega] at h2
    exact h2
  · have h2 := connected_v_aux m x (a - b).toNat b (fun v h1 h2 => h v (by omega) (by omega))
    rw [show b + (((a - b).toNat : Nat) : Int) = a by omega] at h2
    exact Relation.ReflTransGen.symmetric (adjStep_symm m) h2

/-- `Rect::intersects` is symmetric. -/
theorem intersects_comm (r o : Rect) : r.intersects o = o.intersects r := by
  rw [Bool.eq_iff_iff]
  unfold Rect.intersects
  simp only [Bool.and_eq_true, decide_eq_true_eq]
  constructor <;> (intro h; omega)

/-- The last element reported by `getLast?` is in the list. -/
theorem mem_of_getLast?_eq {l : List Rect} {a : Rect} (h : l.getLast? = some a) : a ∈ l := by
  cases l with
  | nil => cases h
  | cons x xs =>
      have hne : x :: xs ≠ [] := by simp
      rw [List.getLast?_eq_getLast _ hne] at h
      cases h
      exact List.getLast_mem hne

/-- Head slot of an extended collection. -/
theorem getD_zero_append (l t : List Object) (h : l ≠ []) :
    (l ++ t).getD 0 dObj = l.getD 0 dObj := by
  cases l with
  | nil => exact absurd rfl h
  | cons x xs => rfl

/-- Head slot after writing it. -/
theorem getD_set_zero (l : List Object) (v : Object) (h : l ≠ []) :
    (l.set 0 v).getD 0 dObj = v := by
  cases l with
  | nil => exact absurd rfl h
  | cons x xs => rfl

/-- A fold whose body appends at most one element extends its accumulator. -/
theorem foldl_append_tail {β : Type} (l : List β)
    (f : List Object → β → List Object)
    (hf : ∀ acc b, f acc b = acc ∨ ∃ x, f acc b = acc ++ [x]) :
    ∀ acc, ∃ tail, l.foldl f acc = acc ++ tail := by
  induction l with
  | nil =>
      intro acc
      exact ⟨[], by simp⟩
  | cons b rest ih =>
      intro acc
      rcases hf acc b with h | ⟨x, h⟩
      · rcases ih (f acc b) with ⟨t, ht⟩
        exact ⟨t, by rw [List.foldl_cons, ht, h]⟩
      · rcases ih (f acc b) with ⟨t, ht⟩
        exact ⟨[x] ++ t, by rw [List.foldl_cons, ht, h, List.append_assoc]⟩

/-- `place_objects` only appends to the world collection. -/
theorem place_objects_append (room : Rect) (map : GameMap) (objs : List Object)
    (ms : List MonsterSample) (its : List (Int × Int)) :
    ∃ tail, place_objects room map objs ms its = objs ++ tail := by
  unfold place_objects
  obtain ⟨t1, ht1⟩ := foldl_append_tail ms (place_monster map)
    (fun acc b => by
      unfold place_monster
      split
      · exact Or.inl rfl
      · exact Or.inr ⟨_, rfl⟩)
    objs
  rw [ht1]
  obtain ⟨t2, ht2⟩ := foldl_append_tail its (place_item map)
    (fun acc b => by
      unfold place_item
      split
      · exact Or.inl rfl
      · exact Or.inr ⟨_, rfl⟩)
    (objs ++ t1)
  rw [ht2, List.append_assoc]
  exact ⟨t1 ++ t2, rfl⟩

/-- Open tiles survive `create_room`. -/
theorem create_room_mono (r : Rect) (map : GameMap) (x y : Int)
    (h : (map x y).blocked = false) : ((create_room r map) x y).blocked = false :=
  carve_mono _ map x y h

/-- A valid room's center tile is open after carving the room. -/
theorem create_room_center_open (r : Rect) (map : GameMap) (hv : ValidRoom r) :
    ((create_room r map) r.center.1 r.center.2).blocked = false := by
  obtain ⟨h1, h2, h3, h4⟩ := center_interior r hv
  unfold create_room
  rw [carve_at, if_pos ((mem_interior r r.center.1 r.center.2).mpr ⟨h1, h2, h3, h4⟩)]
  rfl

/-- Open tiles survive `create_h_tunnel`. -/
theorem create_h_tunnel_mono (x1 x2 y : Int) (map : GameMap) (a b : Int)
    (h : (map a b).blocked = false) : ((create_h_tunnel x1 x2 y map) a b).blocked = false :=
  carve_mono _ map a b h

/-- Open tiles survive `create_v_tunnel`. -/
theorem create_v_tunnel_mono (y1 y2 x : Int) (map : GameMap) (a b : Int)
    (h : (map a b).blocked = false) : ((create_v_tunnel y1 y2 x map) a b).blocked = false :=
  carve_mono _ map a b h

/-- A horizontal-then-vertical L-corridor connects its two ends. -/
theorem corridor_hv (m : GameMap) (px py nx ny : Int) :
    Connected (create_v_tunnel py ny nx (create_h_tunnel px nx py m)) (px, py) (nx, ny) := by
  have hh : ∀ x, min px nx ≤ x → x ≤ max px nx →
      ((create_v_tunnel py ny nx (create_h_tunnel px nx py m)) x py).blocked = false := by
    intro x h1 h2
    unfold create_v_tunnel
    rw [carve_at]
    split
    · rfl
    · unfold create_h_tunnel
      rw [carve_at, if_pos ((mem_hcoords px nx py x py).mpr ⟨h1, h2, rfl⟩)]
      rfl
  have hv2 : ∀ y, min py ny ≤ y → y ≤ max py ny →
      ((create_v_tunnel py ny nx (create_h_tunnel px nx py m)) nx y).blocked = false := by
    intro y h1 h2
    unfold create_v_tunnel
    rw [carve_at, if_pos ((mem_vcoords py ny nx nx y).mpr ⟨h1, h2, rfl⟩)]
    rfl
  exact (connected_h _ py px nx hh).trans (connected_v _ nx py ny hv2)

/-- A vertical-then-horizontal L-corridor connects its two ends. -/
theorem corridor_vh (m : GameMap) (px py nx ny : Int) :
    Connected (create_h_tunnel px nx ny (create_v_tunnel py ny px m)) (px, py) (nx, ny) := by
  have hv2 : ∀ y, min py ny ≤ y → y ≤ max py ny →
      ((create_h_tunnel px nx ny (create_v_tunnel py ny px m)) px y).blocked = false := by
    intro y h1 h2
    unfold create_h_tunnel
    rw [carve_at]
    split
    · rfl
    · unfold create_v_tunnel
      rw [carve_at, if_pos ((mem_vcoords py ny px px y).mpr ⟨h1, h2, rfl⟩)]
      rfl
  have hh : ∀ x, min px nx ≤ x → x ≤ max px nx →
      ((create_h_tunnel px nx ny (create_v_tunnel py ny px m)) x ny).blocked = false := by
    intro x h1 h2
    unfold create_h_tunnel
    rw [carve_at, if_pos ((mem_hcoords px nx ny x ny).mpr ⟨h1, h2, rfl⟩)]
    rfl
  exact (connected_v _ px py ny hv2).trans (connected_h _ ny px nx hh)

/-- Accepting a further non-overlapping valid room whose center is open and
corridor-connected to the previous accepted room preserves the generation
invariant. -/
theorem gen_inv_extend (objs0 : List Object) (map map2 : GameMap) (rooms : List Rect)
    (objects objects1 : List Object) (nr prev : Rect)
    (hinv : GenInv objs0 (map, rooms, objects))
    (hv : ValidRoom nr)
    (hnomem : ∀ r ∈ rooms, nr.intersects r = false)
    (hprev : rooms.getLast? = some prev)
    (hmono : ∀ x y, (map x y).blocked = false → (map2 x y).blocked = false)
    (hopen_new : (map2 nr.center.1 nr.center.2).blocked = false)
    (hcorr : Connected map2 prev.center nr.center)
    (htail : ∃ tail, objects1 = objects ++ tail) :
    GenInv objs0 (map2, rooms ++ [nr], objects1) := by
  have hprev_mem : prev ∈ rooms := mem_of_getLast?_eq hprev
  have hrne : rooms ≠ [] := List.ne_nil_of_mem hprev_mem
  obtain ⟨tail, htail⟩ := htail
  refine ⟨?_, ?_, ?_, ?_, ?_, ?_⟩
  · intro r hr
    rcases List.mem_append.mp hr with h | h
    · exact hinv.valid r h
    · rcases List.mem_singleton.mp h with rfl
      exact hv
  · intro r hr
    rcases List.mem_append.mp hr with h | h
    · exact hmono _ _ (hinv.openc r h)
    · rcases List.mem_singleton.mp h with rfl
      exact hopen_new
  · intro first hfirst r hr
    rw [List.head?_append_of_ne_nil rooms hrne] at hfirst
    rcases List.mem_append.mp hr with h | h
    · exact connected_mono map map2 hmono _ _ (hinv.conn first hfirst r h)
    · rcases List.mem_singleton.mp h with rfl
      exact (connected_mono map map2 hmono _ _
        (hinv.conn first hfirst prev hprev_mem)).trans hcorr
  · refine List.pairwise_append.mpr ⟨hinv.pw, List.pairwise_singleton _ _, ?_⟩
    intro a ha b hb
    rcases List.mem_singleton.mp hb with rfl
    rw [intersects_comm]
    exact hnomem a ha
  · intro first hfirst hne
    rw [List.head?_append_of_ne_nil rooms hrne] at hfirst
    have hobj_ne : objects ≠ [] := by
      have hlen : objs0.length ≤ objects.length := hinv.plen
      intro h0
      rw [h0, List.length_nil] at hlen
      exact hne (List.eq_nil_of_length_eq_zero (by omega))
    show ((objects1).getD PLAYER dObj).position = first.center
    rw [htail]
    show ((objects ++ tail).getD 0 dObj).position = first.center
    rw [getD_zero_append objects tail hobj_ne]
    exact hinv.ppos first hfirst hne
  · have hlen : objs0.length ≤ objects.length := hinv.plen
    show objs0.length ≤ objects1.length
    rw [htail, List.length_append]
    omega

/-- One accepted or rejected `make_map` iteration preserves the generation
invariant. -/
theorem make_map_step_inv (objs0 : List Object) (s : RoomSample) (hs : ValidSample s)
    (map : GameMap) (rooms : List Rect) (objects : List Object)
    (hinv : GenInv objs0 (map, rooms, objects)) :
    GenInv objs0 (make_map_step s map rooms objects) := by
  have hv : ValidRoom (Rect.new s.x s.y s.width s.height) := by
    obtain ⟨w1, w2, w3, w4, w5, w6, w7, w8⟩ := hs
    unfold ROOM_MIN_SIZE at w1 w3
    refine ⟨?_, ?_, ?_, ?_⟩ <;> simp only [Rect.new] <;> omega
  unfold make_map_step
  dsimp only
  by_cases hfail : (rooms.any fun other_room =>
      (Rect.new s.x s.y s.width s.height).intersects other_room) = true
  · rw [if_pos hfail]
    exact hinv
  · rw [if_neg hfail]
    have hnomem : ∀ r ∈ rooms, (Rect.new s.x s.y s.width s.height).intersects r = false := by
      have hany : (rooms.any fun other_room =>
          (Rect.new s.x s.y s.width s.height).intersects other_room) = false := by
        revert hfail
        cases rooms.any fun other_room =>
            (Rect.new s.x s.y s.width s.height).intersects other_room <;> simp
      intro r hr
      have h2 := List.any_eq_false.mp hany r hr
      revert h2
      cases (Rect.new s.x s.y s.width s.height).intersects r <;> simp
    obtain ⟨tail, htail⟩ := place_objects_append (Rect.new s.x s.y s.width s.height)
      (create_room (Rect.new s.x s.y s.width s.height) map) objects s.monsters s.items
    cases hlast : rooms.getLast? with
    | none =>
        have hr0 : rooms = [] := List.getLast?_eq_none_iff.mp hlast
        subst hr0
        dsimp only
        refine ⟨?_, ?_, ?_, ?_, ?_, ?_⟩
        · intro r hr
          rcases List.mem_singleton.mp hr with rfl
          exact hv
        · intro r hr
          rcases List.mem_singleton.mp hr with rfl
          exact create_room_center_open _ map hv
        · intro first hfirst r hr
          rcases List.mem_singleton.mp hr with rfl
          cases hfirst
          exact Relation.ReflTransGen.refl
        · exact List.pairwise_singleton _ _
        · intro first hfirst hne
          cases hfirst
          have hobj_ne : objects ≠ [] := by
            have hlen : objs0.length ≤ objects.length := hinv.plen
            intro h0
            rw [h0, List.length_nil] at hlen
            exact hne (List.eq_nil_of_length_eq_zero (by omega))
          have h1ne : place_objects (Rect.new s.x s.y s.width s.height)
              (create_room (Rect.new s.x s.y s.width s.height) map) objects
              s.monsters s.items ≠ [] := by
            rw [htail]
            intro hcontra
            exact hobj_ne (List.append_eq_nil.mp hcontra).1
          unfold PLAYER
          dsimp only
          rw [getD_set_zero _ _ h1ne]
          rfl
        · have hlen : objs0.length ≤ objects.length := hinv.plen
          calc objs0.length ≤ objects.length := hlen
            _ ≤ (place_objects (Rect.new s.x s.y s.width s.height)
                  (create_room (Rect.new s.x s.y s.width s.height) map) objects
                  s.monsters s.items).length := by
                rw [htail, List.length_append]
                omega
            _ = _ := (List.length_set _ _ _).symm
    | some prev =>
        dsimp only
        have hmono1 : ∀ x y, (map x y).blocked = false →
            ((create_room (Rect.new s.x s.y s.width s.height) map) x y).blocked = false :=
          fun x y h => create_room_mono _ map x y h
        have hopen1 : ((create_room (Rect.new s.x s.y s.width s.height) map)
            (Rect.new s.x s.y s.width s.height).center.1
            (Rect.new s.x s.y s.width s.height).center.2).blocked = false :=
          create_room_center_open _ map hv
        by_cases hcoin : s.coin = true
        · rw [if_pos hcoin]
          refine gen_inv_extend objs0 map _ rooms objects _ _ prev hinv hv hnomem hlast
            (fun x y h => create_v_tunnel_mono _ _ _ _ x y
              (create_h_tunnel_mono _ _ _ _ x y (hmono1 x y h)))
            (create_v_tunnel_mono _ _ _ _ _ _
              (create_h_tunnel_mono _ _ _ _ _ _ hopen1))
            (corridor_hv _ _ _ _ _)
            ⟨tail, htail⟩
        · rw [if_neg hcoin]
          refine gen_inv_extend objs0 map _ rooms objects _ _ prev hinv hv hnomem hlast
            (fun x y h => create_h_tunnel_mono _ _ _ _ x y
              (create_v_tunnel_mono _ _ _ _ x y (hmono1 x y h)))
            (create_h_tunnel_mono _ _ _ _ _ _
              (create_v_tunnel_mono _ _ _ _ _ _ hopen1))
            (corridor_vh _ _ _ _ _)
            ⟨tail, htail⟩

/-- Whole-run preservation of the generation invariant. -/
theorem make_map_loop_inv (objs0 : List Object) (samples : List RoomSample)
    (hs : ∀ s ∈ samples, ValidSample s) :
    ∀ st : GameMap × List Rect × List Object, GenInv objs0 st →
      GenInv objs0 (make_map_loop samples st) := by
  induction samples with
  | nil =>
      intro st h
      exact h
  | cons s rest ih =>
      intro st h
      rcases st with ⟨map, rooms, objects⟩
      show GenInv objs0 (make_map_loop rest (make_map_step s map rooms objects))
      exact ih (fun s2 hs2 => hs s2 (List.mem_cons_of_mem s hs2)) _
        (make_map_step_inv objs0 s (hs s (List.mem_cons_self s rest)) map rooms objects h)

/-- `make_map` establishes the generation invariant from the all-wall grid. -/
theorem make_map_inv (objs0 : List Object) (samples : List RoomSample)
    (hs : ∀ s ∈ samples, ValidSample s) :
    GenInv objs0 (make_map samples objs0) := by
  refine make_map_loop_inv objs0 samples hs _ ?_
  refine ⟨?_, ?_, ?_, ?_, ?_, ?_⟩
  · intro r hr
    cases hr
  · intro r hr
    cases hr
  · intro first hfirst
    cases hfirst
  · exact List.Pairwise.nil
  · intro first hfirst
    cases hfirst
  · exact le_rfl

/-- C6: `Rect::intersects` is true exactly when the two closed rectangles
share a point (edge-adjacency included), and any two distinct accepted rooms
of any `make_map` run do not intersect. -/
theorem c6_rooms_nonoverlap (samples : List RoomSample) (objs0 : List Object)
    (r o : Rect) (hr : r.x1 ≤ r.x2) (hr2 : r.y1 ≤ r.y2)
    (ho : o.x1 ≤ o.x2) (ho2 : o.y1 ≤ o.y2) :
    (r.intersects o = true ↔
      ∃ px py, r.x1 ≤ px ∧ px ≤ r.x2 ∧ o.x1 ≤ px ∧ px ≤ o.x2 ∧
               r.y1 ≤ py ∧ py ≤ r.y2 ∧ o.y1 ≤ py ∧ py ≤ o.y2) ∧
    (∀ (hs : ∀ s2 ∈ samples, ValidSample s2)
       (i j : Fin (make_map samples objs0).2.1.length), i ≠ j →
      ((make_map samples objs0).2.1.get i).intersects
        ((make_map samples objs0).2.1.get j) = false) := by
  constructor
  · unfold Rect.intersects
    simp only [Bool.and_eq_true, decide_eq_true_eq]
    constructor
    · intro h
      refine ⟨max r.x1 o.x1, max r.y1 o.y1, ?_, ?_, ?_, ?_, ?_, ?_, ?_, ?_⟩ <;> omega
    · rintro ⟨px, py, h1, h2, h3, h4, h5, h6, h7, h8⟩
      refine ⟨⟨⟨?_, ?_⟩, ?_⟩, ?_⟩ <;> omega
  · intro hs i j hij
    have hpw := (make_map_inv objs0 samples hs).pw
    have hv : i.val ≠ j.val := fun hv => hij (Fin.ext hv)
    rcases Nat.lt_or_ge i.val j.val with h | h
    · exact List.pairwise_iff_get.mp hpw i j h
    · have h2 : j < i := by omega
      rw [intersects_comm]
      exact List.pairwise_iff_get.mp hpw j i h2

/-- C6 witness: merely edge-adjacent rectangles do intersect (via the
characterization), and the two accepted rooms of a concrete run do not. -/
theorem c6_rooms_nonoverlap_witness :
    (Rect.new 0 0 4 4).intersects (Rect.new 4 4 4 4) = true ∧
    ((make_map [sA, sB] [playerW]).2.1.get ⟨0, by decide⟩).intersects
      ((make_map [sA, sB] [playerW]).2.1.get ⟨1, by decide⟩) = false :=
  ⟨(c6_rooms_nonoverlap [] [] (Rect.new 0 0 4 4) (Rect.new 4 4 4 4)
      (by decide) (by decide) (by decide) (by decide)).1.mpr
      ⟨4, 4, by decide, by decide, by decide, by decide,
       by decide, by decide, by decide, by decide⟩,
   (c6_rooms_nonoverlap [sA, sB] [playerW] (Rect.new 0 0 4 4) (Rect.new 4 4 4 4)
      (by decide) (by decide) (by decide) (by decide)).2
      (by decide) ⟨0, by decide⟩ ⟨1, by decide⟩ (by decide)⟩

/-- C7: for every RNG outcome (sample list within `gen_range` bounds), the
player is repositioned onto the first accepted room's center, and that spawn
point is connected by a path of orthogonally adjacent non-blocked tiles to
the center of every accepted room. -/
theorem c7_spawn_connectivity (samples : List RoomSample) (objs0 : List Object)
    (hs : ∀ s2 ∈ samples, ValidSample s2) (hobj : objs0 ≠ []) :
    ∀ first ∈ ((make_map samples objs0).2.1).head?,
      (((make_map samples objs0).2.2).getD PLAYER dObj).position = first.center ∧
      ∀ room ∈ (make_map samples objs0).2.1,
        Connected (make_map samples objs0).1 first.center room.center := by
  intro first hfirst
  have hinv := make_map_inv objs0 samples hs
  exact ⟨hinv.ppos first hfirst hobj, fun room hr => hinv.conn first hfirst room hr⟩

/-- C7 witness: in a concrete two-room run the player spawns on the first
room's center and both centers are connected. -/
theorem c7_spawn_connectivity_witness :
    (((make_map [sA, sB] [playerW]).2.2).getD PLAYER dObj).position =
      (Rect.new 1 1 6 6).center ∧
    Connected (make_map [sA, sB] [playerW]).1
      (Rect.new 1 1 6 6).center (Rect.new 20 10 6 6).center :=
  ⟨(c7_spawn_connectivity [sA, sB] [playerW] (by decide) (by decide)
      (Rect.new 1 1 6 6) (by decide)).1,
   (c7_spawn_connectivity [sA, sB] [playerW] (by decide) (by decide)
      (Rect.new 1 1 6 6) (by decide)).2 (Rect.new 20 10 6 6) (by decide)⟩

/-- C10: `make_map` does not keep the spawn cell free — on a concrete RNG
outcome, `place_objects` (run before the player is repositioned) puts a
blocking Orc on the very cell the player is then moved to. -/
theorem c10_monster_on_spawn :
    (((make_map [s10] [player25]).2.2).getD PLAYER dObj).position = (4, 4) ∧
    ((make_map [s10] [player25]).2.2.getD 1 dObj).blocks = true ∧
    ((make_map [s10] [player25]).2.2.getD 1 dObj).name = "Orc" ∧
    ((make_map [s10] [player25]).2.2.getD 1 dObj).position = (4, 4) ∧
    ((make_map [s10] [player25]).2.1.headD (Rect.new 0 0 0 0)).center = (4, 4) := by
  refine ⟨?_, ?_, ?_, ?_, ?_⟩ <;> decide

end Unrogue
